import Mathlib

/-!
Verification development for the social-media-dashboard repository.

The repository is a React/TypeScript frontend (under `frontend/src`) plus a
Python FastAPI backend (under `api/` and `backend/`, not part of the sources
available here).  The frontend layer below is embedded directly from the
TypeScript sources (`services/api.ts`, `pages/CreatePost.tsx`,
`pages/ApprovalQueue.tsx`).  The lifecycle engine (create / schedule /
publish fan-out / scheduler tick) lives in the missing backend and is
modelled from the specification document, as indicated by each definition's
doc comment.
-/

namespace SocialDashboard

/-- The platform identifiers used throughout the frontend
(`platforms` list in `CreatePost.tsx`, `platformConfig` in `Settings.tsx`). -/
inductive Platform
  | linkedin
  | twitter
  | facebook
  | instagram
deriving DecidableEq, Repr

/-- Post lifecycle statuses, from the `statusFilters` list in
`PostHistory.tsx`: draft, pending_approval, scheduled, posted, failed. -/
inductive Status
  | draft
  | pending_approval
  | scheduled
  | posted
  | failed
deriving DecidableEq, Repr

/-- The Post record, from the `Post` interface in `frontend/src/services/api.ts`.
Timestamps (ISO strings in the wire format) are modelled as natural numbers so
that the engine's `scheduled_time <= now` comparison is expressible. -/
structure Post where
  id : Nat
  content : String
  image_url : Option String
  image_prompt : Option String
  content_type : String
  topic : Option String
  word_count : Nat
  status : Status
  auto_post : Bool
  scheduled_time : Option Nat
  platforms : List Platform
  posted_ids : List (Platform × String)
  posted_time : Option Nat
  error_message : Option String
  created_at : Nat
  updated_at : Nat
deriving DecidableEq, Repr

/-- Association-list lookup for `posted_ids` (the wire format is a JSON object
keyed by platform identifier; the frontend reads it as `posted_ids?.[platform]`). -/
def lookupId (pl : Platform) : List (Platform × String) → Option String
  | [] => none
  | e :: rest => if e.1 = pl then some e.2 else lookupId pl rest

/-- JavaScript whitespace characters relevant to `String.prototype.trim`
(restricted to the ASCII whitespace the sources can contain). -/
def isWs (c : Char) : Bool :=
  c = ' ' || c = '\t' || c = '\n' || c = '\r'

/-- Model of JavaScript `String.prototype.trim`: strip leading and trailing
whitespace. -/
def jsTrim (s : String) : String :=
  ⟨((s.data.dropWhile isWs).reverse.dropWhile isWs).reverse⟩

/-- Model of the word counter shown in `CreatePost.tsx`:
`content.split(/\s+/).filter(Boolean).length`. -/
def wordCount (s : String) : Nat :=
  ((s.split (fun c => isWs c)).filter (fun w => w ≠ "")).length

/-- Model of the JavaScript idiom `x || undefined` on a string field
(`CreatePost.tsx`, `handleSave`): an empty string is sent as absent. -/
def orUndefined (s : String) : Option String :=
  if s = "" then none else some s

/-! ## Frontend layer, embedded from the TypeScript sources -/

/-- The `CreatePostRequest` interface from `frontend/src/services/api.ts`.
Note: the interface has no `status` field. -/
structure CreatePostRequest where
  content : String
  image_url : Option String
  image_prompt : Option String
  content_type : String
  topic : Option String
  platforms : List String
  auto_post : Bool
  scheduled_time : Option String
deriving DecidableEq, Repr

/-- The partial-field payload the frontend sends through
`postsApi.update(id, data: Partial<Post>)` (`frontend/src/services/api.ts`),
restricted to the fields the pages actually send (`content` in
`handleSaveEdit`, `status` and `scheduled_time` in `handleSchedule`). -/
structure PostUpdate where
  content : Option String := none
  status : Option String := none
  scheduled_time : Option String := none
deriving DecidableEq, Repr

/-- The HTTP calls `postsApi` can emit (`frontend/src/services/api.ts`):
POST /posts, PATCH /posts/id, POST /posts/id/approve, POST /posts/id/publish,
DELETE /posts/id. -/
inductive ApiCall
  | createPost (req : CreatePostRequest)
  | updatePost (id : Nat) (fields : PostUpdate)
  | approvePost (id : Nat)
  | publishPost (id : Nat)
  | deletePost (id : Nat)
deriving DecidableEq, Repr

/-- The save-status argument of `handleSave` in
`frontend/src/pages/CreatePost.tsx`: `status: 'draft' | 'pending_approval'`. -/
inductive SaveStatus
  | draft
  | pending_approval
deriving DecidableEq, Repr

/-- The component state read by `handleSave` in
`frontend/src/pages/CreatePost.tsx`. -/
structure CreatePostState where
  content : String
  imageUrl : String
  imagePrompt : String
  contentType : String
  topic : String
  selectedPlatforms : List String
  autoPost : Bool
deriving DecidableEq, Repr

/-- `handleSave` from `frontend/src/pages/CreatePost.tsx`: validates that the
trimmed content is non-empty and at least one platform is selected, then emits
`postsApi.create` with the fields listed there.  Returns the emitted API call,
or `none` when validation shows a toast and returns without calling the API.
The `status` argument is received but, as in the source, is not part of the
request sent to the API. -/
def handleSave (st : CreatePostState) (status : SaveStatus) : Option ApiCall :=
  if jsTrim st.content = "" then none
  else if st.selectedPlatforms = [] then none
  else
    some (ApiCall.createPost
      { content := st.content
        image_url := orUndefined st.imageUrl
        image_prompt := orUndefined st.imagePrompt
        content_type := st.contentType
        topic := orUndefined st.topic
        platforms := st.selectedPlatforms
        auto_post := st.autoPost
        scheduled_time := none })

/-- `handleSchedule` from `frontend/src/pages/ApprovalQueue.tsx`: if either the
date or the time field is empty it shows a toast and returns; otherwise it
emits `postsApi.update(post.id, { status: 'scheduled', scheduled_time })` where
`scheduled_time` is the ISO rendering of the combined date and time
(`new Date(...).toISOString()`, passed in here as the conversion `toIso`). -/
def handleSchedule (postId : Nat) (scheduleDate scheduleTime : String)
    (toIso : String → String → String) : Option ApiCall :=
  if scheduleDate = "" then none
  else if scheduleTime = "" then none
  else
    some (ApiCall.updatePost postId
      { status := some "scheduled"
        scheduled_time := some (toIso scheduleDate scheduleTime) })

/-! ## Lifecycle engine, modelled from the spec

The engine itself (FastAPI backend under `api/` / `backend/`) is not among the
available sources; every definition in this section is modelled from the
specification document. -/

/-- Modelled from the spec: the outcome of one Publisher Capability call —
"returns either a platform-native post identifier or a failure reason". -/
inductive PubResult
  | ok (postId : String)
  | fail (reason : String)
deriving DecidableEq, Repr

/-- Modelled from the spec: the Publisher Capability registry, "one per
platform"; `none` means no publisher is configured/connected for the platform,
`some publish` is a connected publisher taking (content, image_url). -/
def PubEnv : Type :=
  Platform → Option (String → Option String → PubResult)

/-- Modelled from the spec: the error taxonomy of §7 (`ValidationError`,
`NotFoundError`, `InvalidTransitionError`, `NoPlatformsConfiguredError`). -/
inductive EngineError
  | validation
  | notFound
  | invalidTransition
  | noPlatformsConfigured
deriving DecidableEq, Repr

/-- Modelled from the spec: the platforms a fan-out attempts — "each platform
in `platforms` not already present in `posted_ids`". -/
def pendingPlatforms (p : Post) : List Platform :=
  p.platforms.filter (fun pl => (lookupId pl p.posted_ids).isNone)

/-- Modelled from the spec: one per-platform attempt — "if no publisher is
configured/connected for that platform, record a per-platform failure reason
'not connected' without attempting a network call; otherwise invoke the
platform's publish capability with (content, image_url)". -/
def attemptOne (env : PubEnv) (p : Post) (pl : Platform) : Platform × PubResult :=
  match env pl with
  | none => (pl, PubResult.fail "not connected")
  | some publish => (pl, publish p.content p.image_url)

/-- The per-platform outcomes of one fan-out invocation: one `attemptOne`
call for each platform still pending on the record. -/
def attemptsOf (env : PubEnv) (p : Post) : List (Platform × PubResult) :=
  (pendingPlatforms p).map (attemptOne env p)

/-- The successful (platform, platform-native id) pairs among a list of
per-platform outcomes. -/
def successesOf (outs : List (Platform × PubResult)) : List (Platform × String) :=
  outs.filterMap (fun o =>
    match o.2 with
    | PubResult.ok i => some (o.1, i)
    | PubResult.fail _ => none)

/-- The failing (platform, reason) pairs among a list of per-platform
outcomes. -/
def failuresOf (outs : List (Platform × PubResult)) : List (Platform × String) :=
  outs.filterMap (fun o =>
    match o.2 with
    | PubResult.ok _ => none
    | PubResult.fail r => some (o.1, r))

/-- The wire name of a platform, as in the frontend's platform lists. -/
def platformName : Platform → String
  | Platform.linkedin => "linkedin"
  | Platform.twitter => "twitter"
  | Platform.facebook => "facebook"
  | Platform.instagram => "instagram"

/-- One failing platform's entry in the aggregated error message. -/
def renderFailure (f : Platform × String) : String :=
  platformName f.1 ++ ": " ++ f.2

/-- Modelled from the spec: `error_message` is "populated with the
concatenation of failing platforms' reasons". -/
def renderErrors : List (Platform × String) → String
  | [] => ""
  | [f] => renderFailure f
  | f :: rest => renderFailure f ++ "; " ++ renderErrors rest

/-- The result of one fan-out invocation: the updated Post, the "fully
succeeded" flag of §4.2, and (for reasoning about idempotence) the list of
platforms whose publisher was consulted in this invocation. -/
structure FanOutResult where
  post : Post
  fullySucceeded : Bool
  attempted : List Platform
deriving Repr

/-- Modelled from the spec, §4.2 fan-out/aggregation: attempt every platform
not already present in `posted_ids`; merge the successes into `posted_ids`;
if every platform (across this call and prior calls) has an entry, set
`status = posted`, `posted_time = now` and clear `error_message`; if at least
one platform succeeded (across calls) but not all, still set
`status = posted` with `error_message` carrying the failing reasons; if zero
platforms ever succeeded, set `status = failed` with the combined reasons. -/
def fanOut (env : PubEnv) (now : Nat) (p : Post) : FanOutResult :=
  let todo := pendingPlatforms p
  let outs := attemptsOf env p
  let newIds := p.posted_ids ++ successesOf outs
  let fails := failuresOf outs
  let allOk := p.platforms.all (fun pl => (lookupId pl newIds).isSome)
  let post :=
    if allOk then
      { p with status := Status.posted, posted_ids := newIds,
               posted_time := some now, error_message := none }
    else if newIds.isEmpty then
      { p with status := Status.failed, posted_ids := newIds,
               posted_time := some now,
               error_message := some (renderErrors fails) }
    else
      { p with status := Status.posted, posted_ids := newIds,
               posted_time := some now,
               error_message := some (renderErrors fails) }
  { post := post, fullySucceeded := allOk, attempted := todo }

/-- Modelled from the spec, §6: `publishNow` "fails with
`NoPlatformsConfiguredError` if none of the record's platforms have a
connected publisher"; otherwise runs the §4.2 fan-out and returns the updated
Post plus the boolean "fully succeeded" flag. -/
def publishNow (env : PubEnv) (now : Nat) (p : Post) :
    Except EngineError (Post × Bool) :=
  if p.platforms.all (fun pl => (env pl).isNone) then
    Except.error EngineError.noPlatformsConfigured
  else
    let r := fanOut env now p
    Except.ok (r.post, r.fullySucceeded)

/-- Modelled from the spec: the freshly created Post record — "created in
`draft` or `pending_approval` (caller's choice)", empty `posted_ids`, no
publish outcome yet. -/
def freshPost (id now : Nat) (content content_type : String)
    (platforms : List Platform) (image_url image_prompt topic : Option String)
    (auto_post : Bool) (scheduled : Option Nat) (status : SaveStatus) : Post :=
  { id := id
    content := content
    image_url := image_url
    image_prompt := image_prompt
    content_type := content_type
    topic := topic
    word_count := wordCount content
    status :=
      match status with
      | SaveStatus.draft => Status.draft
      | SaveStatus.pending_approval => Status.pending_approval
    auto_post := auto_post
    scheduled_time := scheduled
    platforms := platforms
    posted_ids := []
    posted_time := none
    error_message := none
    created_at := now
    updated_at := now }

/-- Modelled from the spec, §6: `createPost` "fails with `ValidationError` if
`platforms` is empty or `content` is empty"; otherwise persists and returns
the new record. -/
def createPost (store : List Post) (id now : Nat)
    (content content_type : String) (platforms : List Platform)
    (image_url image_prompt topic : Option String) (auto_post : Bool)
    (scheduled : Option Nat) (status : SaveStatus) :
    Except EngineError (Post × List Post) :=
  if platforms = [] then Except.error EngineError.validation
  else if content = "" then Except.error EngineError.validation
  else
    let p := freshPost id now content content_type platforms image_url
      image_prompt topic auto_post scheduled status
    Except.ok (p, store ++ [p])

/-- Modelled from the spec, §4.1/§6: content edits are legal "while not yet
posted" and fail with `InvalidTransitionError` on a `posted` record; they
update `content` and `word_count`. -/
def updateContent (now : Nat) (newContent : String) (p : Post) :
    Except EngineError Post :=
  if p.status = Status.posted then Except.error EngineError.invalidTransition
  else
    Except.ok { p with content := newContent,
                       word_count := wordCount newContent, updated_at := now }

/-- Modelled from the spec, §6: `approveAndSchedule(id, time)` "fails with
`ValidationError` if time is not in the future"; otherwise sets
`scheduled_time` and moves the record to `scheduled`. -/
def approveAndSchedule (now time : Nat) (p : Post) : Except EngineError Post :=
  if time ≤ now then Except.error EngineError.validation
  else
    Except.ok { p with status := Status.scheduled, scheduled_time := some time }

/-- Modelled from the spec, §4.3: a post is due at a tick when
`status == scheduled` and `scheduled_time <= now`. -/
def dueAt (now : Nat) (p : Post) : Bool :=
  if p.status = Status.scheduled then
    match p.scheduled_time with
    | some t => decide (t ≤ now)
    | none => false
  else false

/-- Modelled from the spec, §4.3/§6: `runScheduledTick(now)` publishes every
due post through the §4.2 fan-out, independently, leaving the other records
untouched, and returns the per-post outcomes. -/
def runScheduledTick (env : PubEnv) (now : Nat) (store : List Post) :
    List Post × List (Post × Bool) :=
  (store.map (fun p => if dueAt now p then (fanOut env now p).post else p),
   (store.filter (fun p => dueAt now p)).map
     (fun p => ((fanOut env now p).post, (fanOut env now p).fullySucceeded)))

/-- Modelled from the spec, §4.1/§6: deletion is unconditional — the record is
removed from the store regardless of status. -/
def deletePost (id : Nat) (store : List Post) : List Post :=
  store.filter (fun p => p.id ≠ id)

/-- The record invariant of §3/§8: `platforms` is never empty and the keys of
`posted_ids` are a subset of `platforms`. -/
def PostInv (p : Post) : Prop :=
  p.platforms ≠ [] ∧ ∀ e ∈ p.posted_ids, e.1 ∈ p.platforms

instance (p : Post) : Decidable (PostInv p) := by
  unfold PostInv
  infer_instance

/-- `reason` is mentioned inside an optional error message: it occurs as a
contiguous substring. -/
def mentionsReason (msg : Option String) (reason : String) : Prop :=
  match msg with
  | none => False
  | some m => reason.data <:+: m.data

instance (msg : Option String) (reason : String) :
    Decidable (mentionsReason msg reason) := by
  unfold mentionsReason
  cases msg with
  | none => exact inferInstanceAs (Decidable False)
  | some m => exact inferInstanceAs (Decidable (_ <:+: _))

/-! ## Concrete fixtures used to instantiate the theorems -/

/-- A filled-in `CreatePost` form state: non-empty content, one platform. -/
def sampleCreateState : CreatePostState :=
  { content := "hello"
    imageUrl := ""
    imagePrompt := ""
    contentType := "educational"
    topic := ""
    selectedPlatforms := ["linkedin"]
    autoPost := false }

/-- The same form state with whitespace-only content. -/
def wsCreateState : CreatePostState :=
  { sampleCreateState with content := " \n  " }

/-- A publisher registry where LinkedIn succeeds with id "X", Twitter fails
with "rate_limited", and the other platforms are not connected. -/
def mixedEnv : PubEnv := fun pl =>
  match pl with
  | Platform.linkedin => some (fun _ _ => PubResult.ok "X")
  | Platform.twitter => some (fun _ _ => PubResult.fail "rate_limited")
  | Platform.facebook => none
  | Platform.instagram => none

/-- A publisher registry where LinkedIn and Twitter both succeed. -/
def okEnv : PubEnv := fun pl =>
  match pl with
  | Platform.linkedin => some (fun _ _ => PubResult.ok "L1")
  | Platform.twitter => some (fun _ _ => PubResult.ok "T1")
  | Platform.facebook => none
  | Platform.instagram => none

/-- A pending-approval post targeting LinkedIn and Twitter, nothing posted
yet. -/
def basePost : Post :=
  { id := 1
    content := "hello world"
    image_url := none
    image_prompt := none
    content_type := "educational"
    topic := none
    word_count := 2
    status := Status.pending_approval
    auto_post := false
    scheduled_time := none
    platforms := [Platform.linkedin, Platform.twitter]
    posted_ids := []
    posted_time := none
    error_message := none
    created_at := 0
    updated_at := 0 }

/-- A scheduled post whose scheduled time (5) has elapsed at tick time 10. -/
def duePost : Post :=
  { basePost with id := 2, status := Status.scheduled, scheduled_time := some 5 }

/-- A scheduled post whose scheduled time (50) has not elapsed at tick
time 10. -/
def laterPost : Post :=
  { basePost with id := 3, status := Status.scheduled, scheduled_time := some 50 }

/-! ## Supporting lemmas -/

theorem attemptOne_fst (env : PubEnv) (p : Post) (pl : Platform) :
    (attemptOne env p pl).1 = pl := by
  unfold attemptOne
  cases env pl <;> rfl

theorem lookupId_eq_none_iff (pl : Platform) (l : List (Platform × String)) :
    lookupId pl l = none ↔ ∀ i, (pl, i) ∉ l := by
  induction l with
  | nil => simp [lookupId]
  | cons e rest ih =>
    by_cases he : e.1 = pl
    · simp only [lookupId, if_pos he]
      constructor
      · intro h
        simp at h
      · intro h
        have hmem : (pl, e.2) ∈ e :: rest := by
          rw [← he]
          exact List.mem_cons_self e rest
        exact absurd hmem (h e.2)
    · simp only [lookupId, if_neg he]
      rw [ih]
      constructor
      · intro h i hmem
        rcases List.mem_cons.mp hmem with h1 | h1
        · exact he (congrArg Prod.fst h1.symm)
        · exact h i h1
      · intro h i hmem
        exact h i (List.mem_cons_of_mem e hmem)

theorem mem_attemptsOf (env : PubEnv) (p : Post) (pl : Platform)
    (res : PubResult) (h : (pl, res) ∈ attemptsOf env p) :
    pl ∈ pendingPlatforms p ∧ attemptOne env p pl = (pl, res) := by
  obtain ⟨q, hq, hqo⟩ := List.mem_map.mp h
  have hfst : q = pl := by
    have h1 := attemptOne_fst env p q
    rw [hqo] at h1
    exact h1.symm
  subst hfst
  exact ⟨hq, hqo⟩

theorem attempt_success_mem (env : PubEnv) (p : Post) (pl : Platform)
    (i : String) (h : (pl, i) ∈ successesOf (attemptsOf env p)) :
    pl ∈ pendingPlatforms p ∧ attemptOne env p pl = (pl, PubResult.ok i) := by
  obtain ⟨o, ho, heq⟩ := List.mem_filterMap.mp h
  have ho2 : o = (pl, PubResult.ok i) := by
    obtain ⟨opl, ores⟩ := o
    cases ores with
    | ok j =>
      simp only [Option.some.injEq, Prod.mk.injEq] at heq
      rw [heq.1, heq.2]
    | fail r => simp at heq
  rw [ho2] at ho
  exact mem_attemptsOf env p pl (PubResult.ok i) ho

theorem attempt_failure_mem (env : PubEnv) (p : Post) (pl : Platform)
    (r : String) (h : (pl, r) ∈ failuresOf (attemptsOf env p)) :
    pl ∈ pendingPlatforms p ∧ attemptOne env p pl = (pl, PubResult.fail r) := by
  obtain ⟨o, ho, heq⟩ := List.mem_filterMap.mp h
  have ho2 : o = (pl, PubResult.fail r) := by
    obtain ⟨opl, ores⟩ := o
    cases ores with
    | ok j => simp at heq
    | fail s =>
      simp only [Option.some.injEq, Prod.mk.injEq] at heq
      rw [heq.1, heq.2]
  rw [ho2] at ho
  exact mem_attemptsOf env p pl (PubResult.fail r) ho

theorem fanOut_attempted (env : PubEnv) (now : Nat) (p : Post) :
    (fanOut env now p).attempted = pendingPlatforms p := rfl

theorem fanOut_post_platforms (env : PubEnv) (now : Nat) (p : Post) :
    (fanOut env now p).post.platforms = p.platforms := by
  unfold fanOut
  dsimp only
  split
  · rfl
  · split <;> rfl

theorem fanOut_post_posted_ids (env : PubEnv) (now : Nat) (p : Post) :
    (fanOut env now p).post.posted_ids
      = p.posted_ids ++ successesOf (attemptsOf env p) := by
  unfold fanOut
  dsimp only
  split
  · rfl
  · split <;> rfl

theorem fanOut_fullySucceeded (env : PubEnv) (now : Nat) (p : Post) :
    (fanOut env now p).fullySucceeded
      = p.platforms.all (fun pl =>
          (lookupId pl (p.posted_ids ++ successesOf (attemptsOf env p))).isSome) :=
  rfl

theorem withinAppendLeft {α : Type _} {x l₁ : List α} (l₂ : List α)
    (h : x <:+: l₁) : x <:+: l₁ ++ l₂ := by
  obtain ⟨s, t, rfl⟩ := h
  exact ⟨s, t ++ l₂, by simp⟩

theorem withinAppendRight {α : Type _} {x l₂ : List α} (l₁ : List α)
    (h : x <:+: l₂) : x <:+: l₁ ++ l₂ := by
  obtain ⟨s, t, rfl⟩ := h
  exact ⟨l₁ ++ s, t, by simp⟩

theorem reason_within_renderFailure (f : Platform × String) :
    f.2.data <:+: (renderFailure f).data := by
  unfold renderFailure
  rw [String.data_append, String.data_append]
  exact ⟨(platformName f.1).data ++ ": ".data, [], by simp⟩

theorem renderErrors_mentions (l : List (Platform × String))
    (f : Platform × String) (h : f ∈ l) :
    f.2.data <:+: (renderErrors l).data := by
  induction l with
  | nil => cases h
  | cons g t ih =>
    cases t with
    | nil =>
      rcases List.mem_singleton.mp h with rfl
      exact reason_within_renderFailure f
    | cons g' t' =>
      rcases List.mem_cons.mp h with rfl | hmem
      · show f.2.data <:+: (renderFailure f ++ "; " ++ renderErrors (g' :: t')).data
        rw [String.data_append, String.data_append]
        exact withinAppendLeft _ (withinAppendLeft _ (reason_within_renderFailure f))
      · show f.2.data <:+: (renderFailure g ++ "; " ++ renderErrors (g' :: t')).data
        rw [String.data_append, String.data_append]
        exact withinAppendRight _ (ih hmem)

theorem jsTrim_eq_empty_of_all_ws (s : String)
    (h : s.data.all isWs = true) : jsTrim s = "" := by
  unfold jsTrim
  have h1 : s.data.dropWhile isWs = [] :=
    List.dropWhile_eq_nil_iff.mpr (fun x hx => List.all_eq_true.mp h x hx)
  rw [h1]
  rfl

/-! ## Claim theorems -/

/-- C4 (counterexample): at a concrete filled-in form, `handleSave` emits the
very same `CreatePostRequest` for the `draft` choice and the
`pending_approval` choice — the request carries no status field at all, so
the caller's choice cannot select the created Post's initial status. -/
theorem save_status_choice_not_transmitted :
    handleSave sampleCreateState SaveStatus.draft
        = handleSave sampleCreateState SaveStatus.pending_approval
      ∧ handleSave sampleCreateState SaveStatus.draft
        = some (ApiCall.createPost
            { content := "hello"
              image_url := none
              image_prompt := none
              content_type := "educational"
              topic := none
              platforms := ["linkedin"]
              auto_post := false
              scheduled_time := none }) := by
  constructor
  · rfl
  · decide

/-- C4 (amended): the creation request built by `handleSave` is independent of
the caller's draft / pending_approval choice; the choice affects only the
confirmation toast, so the created Post's initial status is decided by the
backend, not by the caller. -/
theorem create_request_independent_of_save_status (st : CreatePostState) :
    handleSave st SaveStatus.draft = handleSave st SaveStatus.pending_approval :=
  rfl

/-- C5: `approveAndSchedule` fails with `ValidationError` exactly when the
requested time is not in the future; on a future time it succeeds, sets
`scheduled_time`, and moves the record to `scheduled`. -/
theorem approveAndSchedule_validates_future (now time : Nat) (p : Post) :
    (time ≤ now →
      approveAndSchedule now time p = Except.error EngineError.validation)
    ∧ (now < time →
      approveAndSchedule now time p
        = Except.ok
            { p with status := Status.scheduled, scheduled_time := some time }) := by
  constructor
  · intro h
    unfold approveAndSchedule
    rw [if_pos h]
  · intro h
    unfold approveAndSchedule
    rw [if_neg (by omega)]

/-- C5 witness: at `now = 5`, scheduling for time 3 is rejected with
`ValidationError` and scheduling for time 9 succeeds with status
`scheduled`. -/
theorem approveAndSchedule_validates_future_witness :
    approveAndSchedule 5 3 basePost = Except.error EngineError.validation
    ∧ approveAndSchedule 5 9 basePost
      = Except.ok
          { basePost with status := Status.scheduled, scheduled_time := some 9 } :=
  ⟨(approveAndSchedule_validates_future 5 3 basePost).1 (by omega),
   (approveAndSchedule_validates_future 5 9 basePost).2 (by omega)⟩

/-- C6: `createPost` fails with `ValidationError` whenever the platform list
is empty or the content is empty; for non-empty content and a non-empty
platform list it returns the new record, persisted in the returned store. -/
theorem createPost_validates_and_persists (store : List Post) (id now : Nat)
    (content content_type : String) (platforms : List Platform)
    (image_url image_prompt topic : Option String) (auto_post : Bool)
    (scheduled : Option Nat) (status : SaveStatus) :
    ((platforms = [] ∨ content = "") →
      createPost store id now content content_type platforms image_url
          image_prompt topic auto_post scheduled status
        = Except.error EngineError.validation)
    ∧ (platforms ≠ [] → content ≠ "" →
      createPost store id now content content_type platforms image_url
          image_prompt topic auto_post scheduled status
        = Except.ok
            (freshPost id now content content_type platforms image_url
              image_prompt topic auto_post scheduled status,
             store ++ [freshPost id now content content_type platforms image_url
              image_prompt topic auto_post scheduled status])
      ∧ freshPost id now content content_type platforms image_url image_prompt
          topic auto_post scheduled status
        ∈ store ++ [freshPost id now content content_type platforms image_url
            image_prompt topic auto_post scheduled status]) := by
  constructor
  · intro h
    unfold createPost
    rcases h with h | h
    · rw [if_pos h]
    · by_cases hp : platforms = []
      · rw [if_pos hp]
      · rw [if_neg hp, if_pos h]
  · intro hp hc
    unfold createPost
    rw [if_neg hp, if_neg hc]
    refine ⟨rfl, ?_⟩
    exact List.mem_append.mpr (Or.inr (List.mem_singleton.mpr rfl))

/-- C6 witness: with empty platforms the creation is rejected; with content
"hi" on LinkedIn it is accepted and the record ends up in the store. -/
theorem createPost_validates_and_persists_witness :
    createPost [] 1 0 "hi" "custom" [] none none none false none
        SaveStatus.draft
      = Except.error EngineError.validation
    ∧ createPost [] 1 0 "hi" "custom" [Platform.linkedin] none none none false
        none SaveStatus.draft
      = Except.ok
          (freshPost 1 0 "hi" "custom" [Platform.linkedin] none none none false
            none SaveStatus.draft,
           [] ++ [freshPost 1 0 "hi" "custom" [Platform.linkedin] none none none
            false none SaveStatus.draft]) :=
  ⟨(createPost_validates_and_persists [] 1 0 "hi" "custom" [] none none none
      false none SaveStatus.draft).1 (Or.inl rfl),
   ((createPost_validates_and_persists [] 1 0 "hi" "custom" [Platform.linkedin]
      none none none false none SaveStatus.draft).2 (by decide) (by decide)).1⟩

/-- C9: with a non-empty date and time, the Approval Queue's schedule handler
performs the pending_approval → scheduled transition through the generic
update call, sending exactly the partial fields
`{ status: 'scheduled', scheduled_time }`; it never uses the dedicated
approve endpoint. -/
theorem schedule_uses_generic_update (id : Nat) (d t : String)
    (toIso : String → String → String) (hd : d ≠ "") (ht : t ≠ "") :
    handleSchedule id d t toIso
      = some (ApiCall.updatePost id
          { content := none
            status := some "scheduled"
            scheduled_time := some (toIso d t) })
    ∧ ∀ j, handleSchedule id d t toIso ≠ some (ApiCall.approvePost j) := by
  have hcall : handleSchedule id d t toIso
      = some (ApiCall.updatePost id
          { content := none
            status := some "scheduled"
            scheduled_time := some (toIso d t) }) := by
    unfold handleSchedule
    rw [if_neg hd, if_neg ht]
  refine ⟨hcall, ?_⟩
  intro j hj
  rw [hcall] at hj
  simp at hj

/-- C9 witness: scheduling post 7 for date "2026-01-01" and time "10:00"
emits the generic update call with status "scheduled". -/
theorem schedule_uses_generic_update_witness :
    handleSchedule 7 "2026-01-01" "10:00" (fun d t => d ++ "T" ++ t)
      = some (ApiCall.updatePost 7
          { content := none
            status := some "scheduled"
            scheduled_time := some "2026-01-01T10:00" })
    ∧ handleSchedule 7 "2026-01-01" "10:00" (fun d t => d ++ "T" ++ t)
      ≠ some (ApiCall.approvePost 7) :=
  ⟨(schedule_uses_generic_update 7 "2026-01-01" "10:00"
      (fun d t => d ++ "T" ++ t) (by decide) (by decide)).1,
   (schedule_uses_generic_update 7 "2026-01-01" "10:00"
      (fun d t => d ++ "T" ++ t) (by decide) (by decide)).2 7⟩

/-- C10: the creation path rejects content consisting only of whitespace: if
every character of the content is whitespace, `handleSave` refuses to emit
the creation call. -/
theorem whitespace_only_content_rejected (st : CreatePostState)
    (status : SaveStatus) (h : st.content.data.all isWs = true) :
    handleSave st status = none := by
  unfold handleSave
  rw [jsTrim_eq_empty_of_all_ws st.content h, if_pos rfl]

/-- C10 witness: a form whose content is " \n  " is rejected by
`handleSave`. -/
theorem whitespace_only_content_rejected_witness :
    handleSave wsCreateState SaveStatus.pending_approval = none :=
  whitespace_only_content_rejected wsCreateState SaveStatus.pending_approval
    (by decide)

/-- C3: as long as at least one of the record's platforms has a connected
publisher, `publishNow` never raises an error — whatever the individual
publishers return, it answers with the updated Post and the fully-succeeded
flag, and that flag is true exactly when every platform holds an entry in the
resulting `posted_ids`. -/
theorem publishNow_folds_platform_failures (env : PubEnv) (now : Nat)
    (p : Post) (h : ∃ pl, pl ∈ p.platforms ∧ (env pl).isSome = true) :
    publishNow env now p
      = Except.ok ((fanOut env now p).post, (fanOut env now p).fullySucceeded)
    ∧ ((fanOut env now p).fullySucceeded = true ↔
        ∀ pl ∈ p.platforms,
          (lookupId pl (fanOut env now p).post.posted_ids).isSome = true) := by
  obtain ⟨pl, hmem, hsome⟩ := h
  have hguard : ¬(p.platforms.all (fun q => (env q).isNone) = true) := by
    intro hg
    have hnone := List.all_eq_true.mp hg pl hmem
    rw [Option.isNone_iff_eq_none.mp hnone] at hsome
    simp at hsome
  constructor
  · unfold publishNow
    rw [if_neg hguard]
  · rw [fanOut_fullySucceeded, fanOut_post_posted_ids]
    exact List.all_eq_true

/-- C3 witness: with LinkedIn connected (succeeding) and Twitter connected
(failing), `publishNow` still returns a result instead of raising. -/
theorem publishNow_folds_platform_failures_witness :
    publishNow mixedEnv 7 basePost
      = Except.ok
          ((fanOut mixedEnv 7 basePost).post,
           (fanOut mixedEnv 7 basePost).fullySucceeded) :=
  (publishNow_folds_platform_failures mixedEnv 7 basePost
    ⟨Platform.linkedin, by decide, by decide⟩).1

/-- The §4.2 fan-out lands in the partial/failed branch layout whenever not
every platform has an entry: the merged ids are kept and the failing reasons
are rendered into `error_message`. -/
theorem fanOut_not_all_ok (env : PubEnv) (now : Nat) (p : Post)
    (hA : p.platforms.all (fun pl =>
        (lookupId pl (p.posted_ids ++ successesOf (attemptsOf env p))).isSome)
      = false)
    (hne : (p.posted_ids ++ successesOf (attemptsOf env p)).isEmpty = false) :
    (fanOut env now p).post
      = { p with
          status := Status.posted
          posted_ids := p.posted_ids ++ successesOf (attemptsOf env p)
          posted_time := some now
          error_message := some (renderErrors (failuresOf (attemptsOf env p))) } := by
  unfold fanOut
  dsimp only
  rw [if_neg (by rw [hA]; simp), if_neg (by rw [hne]; simp)]

/-- C1: in a fan-out over a fresh record where at least one platform's
publisher succeeds and at least one fails, the resulting Post is `posted`,
its `posted_ids` are exactly the successful platforms' entries, and every
failing platform's reason is mentioned in `error_message`. -/
theorem publish_partial_success_aggregation (env : PubEnv) (now : Nat)
    (p : Post) (hprior : p.posted_ids = [])
    (hs : successesOf (attemptsOf env p) ≠ [])
    (hf : failuresOf (attemptsOf env p) ≠ []) :
    (fanOut env now p).post.status = Status.posted
    ∧ (fanOut env now p).post.posted_ids = successesOf (attemptsOf env p)
    ∧ ∀ f ∈ failuresOf (attemptsOf env p),
        mentionsReason (fanOut env now p).post.error_message f.2 := by
  obtain ⟨f0, hf0⟩ := List.exists_mem_of_ne_nil _ hf
  obtain ⟨fpl, fr⟩ := f0
  obtain ⟨hf0pend, hf0att⟩ := attempt_failure_mem env p fpl fr hf0
  have hf0plat : fpl ∈ p.platforms := (List.mem_filter.mp hf0pend).1
  have hlook : lookupId fpl (successesOf (attemptsOf env p)) = none := by
    rw [lookupId_eq_none_iff]
    intro i hmem
    obtain ⟨_, hatt⟩ := attempt_success_mem env p fpl i hmem
    rw [hf0att] at hatt
    simp at hatt
  have hA : p.platforms.all (fun pl =>
      (lookupId pl (p.posted_ids ++ successesOf (attemptsOf env p))).isSome)
      = false := by
    rw [hprior, List.nil_append]
    cases hall : p.platforms.all
        (fun pl => (lookupId pl (successesOf (attemptsOf env p))).isSome) with
    | false => rfl
    | true =>
      have hx := List.all_eq_true.mp hall fpl hf0plat
      rw [hlook] at hx
      simp at hx
  have hne : (p.posted_ids ++ successesOf (attemptsOf env p)).isEmpty = false := by
    rw [hprior, List.nil_append]
    cases hSl : successesOf (attemptsOf env p) with
    | nil => exact absurd hSl hs
    | cons a t => rfl
  have hpost := fanOut_not_all_ok env now p hA hne
  refine ⟨?_, ?_, ?_⟩
  · rw [hpost]
  · rw [hpost]
    show p.posted_ids ++ successesOf (attemptsOf env p)
        = successesOf (attemptsOf env p)
    rw [hprior, List.nil_append]
  · intro f hfm
    rw [hpost]
    show f.2.data <:+: (renderErrors (failuresOf (attemptsOf env p))).data
    exact renderErrors_mentions _ f hfm

/-- C1 witness: platforms {linkedin, twitter} where LinkedIn succeeds with
id "X" and Twitter fails with "rate_limited" yield a posted record whose
`posted_ids` is exactly {linkedin: "X"} and whose error message mentions
"rate_limited". -/
theorem publish_partial_success_aggregation_witness :
    (fanOut mixedEnv 7 basePost).post.status = Status.posted
    ∧ (fanOut mixedEnv 7 basePost).post.posted_ids
        = [(Platform.linkedin, "X")]
    ∧ mentionsReason (fanOut mixedEnv 7 basePost).post.error_message
        "rate_limited" := by
  have h := publish_partial_success_aggregation mixedEnv 7 basePost rfl
    (by decide) (by decide)
  exact ⟨h.1, h.2.1.trans (by decide),
         h.2.2 (Platform.twitter, "rate_limited") (by decide)⟩

/-- C2: a fan-out consults exactly the platforms without an entry in
`posted_ids`; and after a fully successful `publishNow`, a second `publishNow`
consults no publisher at all, reports full success again, and leaves
`posted_ids` unchanged. -/
theorem publish_idempotent_per_platform (env : PubEnv) (now now2 : Nat)
    (p p1 : Post) :
    (∀ pl, pl ∈ (fanOut env now p).attempted ↔
        pl ∈ p.platforms ∧ lookupId pl p.posted_ids = none)
    ∧ (publishNow env now p = Except.ok (p1, true) →
        (fanOut env now2 p1).attempted = []
        ∧ publishNow env now2 p1
            = Except.ok ((fanOut env now2 p1).post, true)
        ∧ (fanOut env now2 p1).post.posted_ids = p1.posted_ids) := by
  constructor
  · intro pl
    rw [fanOut_attempted]
    unfold pendingPlatforms
    rw [List.mem_filter, Option.isNone_iff_eq_none]
  · intro h
    unfold publishNow at h
    by_cases hg : p.platforms.all (fun pl => (env pl).isNone) = true
    · rw [if_pos hg] at h
      exact absurd h (by simp)
    · rw [if_neg hg] at h
      dsimp only at h
      rw [Except.ok.injEq, Prod.mk.injEq] at h
      obtain ⟨hp1, hfull⟩ := h
      subst hp1
      have hfull' : p.platforms.all (fun pl =>
          (lookupId pl
            (p.posted_ids ++ successesOf (attemptsOf env p))).isSome) = true := by
        rw [← fanOut_fullySucceeded env now p]
        exact hfull
      have hpend : pendingPlatforms (fanOut env now p).post = [] := by
        unfold pendingPlatforms
        rw [fanOut_post_platforms, fanOut_post_posted_ids]
        rw [List.filter_eq_nil_iff]
        intro a ha
        have hx := List.all_eq_true.mp hfull' a ha
        simp only [Option.isNone_iff_eq_none]
        intro hnone
        rw [hnone] at hx
        simp at hx
      have hatt2 : attemptsOf env (fanOut env now p).post = [] := by
        unfold attemptsOf
        rw [hpend]
        rfl
      have hids2 : (fanOut env now2 (fanOut env now p).post).post.posted_ids
          = (fanOut env now p).post.posted_ids := by
        rw [fanOut_post_posted_ids, hatt2]
        show (fanOut env now p).post.posted_ids ++ successesOf []
            = (fanOut env now p).post.posted_ids
        simp [successesOf]
      have hfull2 : (fanOut env now2 (fanOut env now p).post).fullySucceeded
          = true := by
        rw [fanOut_fullySucceeded, hatt2]
        show (fanOut env now p).post.platforms.all (fun pl =>
          (lookupId pl
            ((fanOut env now p).post.posted_ids ++ successesOf [])).isSome) = true
        simp only [successesOf, List.filterMap_nil, List.append_nil]
        rw [fanOut_post_platforms, fanOut_post_posted_ids]
        exact hfull'
      refine ⟨?_, ?_, hids2⟩
      · rw [fanOut_attempted]
        exact hpend
      · unfold publishNow
        rw [if_neg (by rw [fanOut_post_platforms]; exact hg)]
        dsimp only
        rw [hfull2]

/-- C2 witness: with both publishers succeeding, the first fan-out attempts
platforms without entries; the second `publishNow` attempts nothing and keeps
`posted_ids`. -/
theorem publish_idempotent_per_platform_witness :
    (Platform.linkedin ∈ (fanOut okEnv 3 basePost).attempted ↔
        Platform.linkedin ∈ basePost.platforms
          ∧ lookupId Platform.linkedin basePost.posted_ids = none)
    ∧ (fanOut okEnv 4 (fanOut okEnv 3 basePost).post).attempted = []
    ∧ publishNow okEnv 4 (fanOut okEnv 3 basePost).post
        = Except.ok ((fanOut okEnv 4 (fanOut okEnv 3 basePost).post).post, true)
    ∧ (fanOut okEnv 4 (fanOut okEnv 3 basePost).post).post.posted_ids
        = (fanOut okEnv 3 basePost).post.posted_ids := by
  have h := publish_idempotent_per_platform okEnv 3 4 basePost
    ((fanOut okEnv 3 basePost).post)
  have hb := h.2 rfl
  exact ⟨h.1 Platform.linkedin, hb.1, hb.2.1, hb.2.2⟩

/-- C8: a tick publishes exactly the due posts (status `scheduled` with an
elapsed `scheduled_time`), every non-due record is untouched, and each
record's processing is a pointwise function of that record alone, so one
post's publish failure cannot affect the others. -/
theorem runScheduledTick_processes_exactly_due (env : PubEnv) (now : Nat)
    (store : List Post) :
    (∀ p ∈ store, dueAt now p = true →
        ((fanOut env now p).post, (fanOut env now p).fullySucceeded)
          ∈ (runScheduledTick env now store).2)
    ∧ (∀ o ∈ (runScheduledTick env now store).2,
        ∃ p ∈ store, dueAt now p = true
          ∧ o = ((fanOut env now p).post, (fanOut env now p).fullySucceeded))
    ∧ (∀ p : Post, dueAt now p = true ↔
        p.status = Status.scheduled ∧ ∃ t, p.scheduled_time = some t ∧ t ≤ now)
    ∧ (∀ (i : Nat) (p : Post), store[i]? = some p →
        (dueAt now p = false →
          (runScheduledTick env now store).1[i]? = some p)
        ∧ (dueAt now p = true →
          (runScheduledTick env now store).1[i]?
            = some (fanOut env now p).post)) := by
  have hfst : (runScheduledTick env now store).1
      = store.map (fun q => if dueAt now q then (fanOut env now q).post else q) :=
    rfl
  have hsnd : (runScheduledTick env now store).2
      = (store.filter (fun q => dueAt now q)).map
          (fun q => ((fanOut env now q).post, (fanOut env now q).fullySucceeded)) :=
    rfl
  refine ⟨?_, ?_, ?_, ?_⟩
  · intro p hp hdue
    rw [hsnd]
    exact List.mem_map.mpr ⟨p, List.mem_filter.mpr ⟨hp, hdue⟩, rfl⟩
  · intro o ho
    rw [hsnd] at ho
    obtain ⟨p, hpf, rfl⟩ := List.mem_map.mp ho
    obtain ⟨hp, hdue⟩ := List.mem_filter.mp hpf
    exact ⟨p, hp, hdue, rfl⟩
  · intro p
    unfold dueAt
    by_cases hst : p.status = Status.scheduled
    · rw [if_pos hst]
      cases hsch : p.scheduled_time with
      | none => simp [hst]
      | some t => simp [hst]
    · rw [if_neg hst]
      simp [hst]
  · intro i p hp
    constructor
    · intro hfalse
      rw [hfst, List.getElem?_map, hp]
      simp [hfalse]
    · intro htrue
      rw [hfst, List.getElem?_map, hp]
      simp [htrue]

/-- C8 witness: at tick time 10, with one post due at 5 and one scheduled for
50, the due one is published and the other is untouched. -/
theorem runScheduledTick_processes_exactly_due_witness :
    ((fanOut okEnv 10 duePost).post, (fanOut okEnv 10 duePost).fullySucceeded)
      ∈ (runScheduledTick okEnv 10 [duePost, laterPost]).2
    ∧ (runScheduledTick okEnv 10 [duePost, laterPost]).1[1]? = some laterPost := by
  have h := runScheduledTick_processes_exactly_due okEnv 10 [duePost, laterPost]
  exact ⟨h.1 duePost (by decide) (by decide),
         (h.2.2.2 1 laterPost (by decide)).1 (by decide)⟩

theorem fanOut_preserves_inv (env : PubEnv) (now : Nat) (p : Post)
    (h : PostInv p) : PostInv (fanOut env now p).post := by
  obtain ⟨hne, hsub⟩ := h
  constructor
  · rw [fanOut_post_platforms]
    exact hne
  · intro e he
    obtain ⟨pl, i⟩ := e
    rw [fanOut_post_posted_ids] at he
    rw [fanOut_post_platforms]
    rcases List.mem_append.mp he with h1 | h1
    · exact hsub (pl, i) h1
    · obtain ⟨hpend, _⟩ := attempt_success_mem env p pl i h1
      exact (List.mem_filter.mp hpend).1

/-- C7: every engine operation establishes or preserves the record invariant:
`platforms` is non-empty and the keys of `posted_ids` are a subset of
`platforms` — for creation, content edits, approve-and-schedule, the fan-out,
`publishNow`, the scheduler tick, and deletion. -/
theorem engine_preserves_record_invariants :
    (∀ (store : List Post) (id now : Nat) (content content_type : String)
        (platforms : List Platform) (iu ip tp : Option String) (ap : Bool)
        (sc : Option Nat) (st : SaveStatus) (q : Post) (store' : List Post),
        createPost store id now content content_type platforms iu ip tp ap sc st
          = Except.ok (q, store') → PostInv q)
    ∧ (∀ (now : Nat) (c : String) (p q : Post),
        PostInv p → updateContent now c p = Except.ok q → PostInv q)
    ∧ (∀ (now time : Nat) (p q : Post),
        PostInv p → approveAndSchedule now time p = Except.ok q → PostInv q)
    ∧ (∀ (env : PubEnv) (now : Nat) (p : Post),
        PostInv p → PostInv (fanOut env now p).post)
    ∧ (∀ (env : PubEnv) (now : Nat) (p q : Post) (b : Bool),
        PostInv p → publishNow env now p = Except.ok (q, b) → PostInv q)
    ∧ (∀ (env : PubEnv) (now : Nat) (store : List Post),
        (∀ p ∈ store, PostInv p) →
        ∀ q ∈ (runScheduledTick env now store).1, PostInv q)
    ∧ (∀ (id : Nat) (store : List Post),
        (∀ p ∈ store, PostInv p) → ∀ q ∈ deletePost id store, PostInv q) := by
  refine ⟨?_, ?_, ?_, fanOut_preserves_inv, ?_, ?_, ?_⟩
  · intro store id now content content_type platforms iu ip tp ap sc st q
      store' h
    unfold createPost at h
    by_cases hp : platforms = []
    · rw [if_pos hp] at h
      exact absurd h (by simp)
    · rw [if_neg hp] at h
      by_cases hc : content = ""
      · rw [if_pos hc] at h
        exact absurd h (by simp)
      · rw [if_neg hc] at h
        dsimp only at h
        rw [Except.ok.injEq, Prod.mk.injEq] at h
        rw [← h.1]
        refine ⟨hp, ?_⟩
        intro e he
        simp [freshPost] at he
  · intro now c p q hInv h
    unfold updateContent at h
    by_cases hst : p.status = Status.posted
    · rw [if_pos hst] at h
      exact absurd h (by simp)
    · rw [if_neg hst] at h
      rw [Except.ok.injEq] at h
      rw [← h]
      exact ⟨hInv.1, hInv.2⟩
  · intro now time p q hInv h
    unfold approveAndSchedule at h
    by_cases ht : time ≤ now
    · rw [if_pos ht] at h
      exact absurd h (by simp)
    · rw [if_neg ht] at h
      rw [Except.ok.injEq] at h
      rw [← h]
      exact ⟨hInv.1, hInv.2⟩
  · intro env now p q b hInv h
    unfold publishNow at h
    by_cases hg : p.platforms.all (fun pl => (env pl).isNone) = true
    · rw [if_pos hg] at h
      exact absurd h (by simp)
    · rw [if_neg hg] at h
      dsimp only at h
      rw [Except.ok.injEq, Prod.mk.injEq] at h
      rw [← h.1]
      exact fanOut_preserves_inv env now p hInv
  · intro env now store hstore q hq
    have hfst : (runScheduledTick env now store).1
        = store.map
            (fun r => if dueAt now r then (fanOut env now r).post else r) := rfl
    rw [hfst] at hq
    obtain ⟨p, hp, rfl⟩ := List.mem_map.mp hq
    split
    · exact fanOut_preserves_inv env now p (hstore p hp)
    · exact hstore p hp
  · intro id store hstore q hq
    exact hstore q (List.mem_filter.mp hq).1

/-- C7 witness: the invariant holds for a freshly created record, after a
content edit, after scheduling, after a partial fan-out, after a fully
successful `publishNow`, for the untouched record of a tick, and for a
record surviving a deletion. -/
theorem engine_preserves_record_invariants_witness :
    PostInv (freshPost 1 0 "hi" "custom" [Platform.linkedin] none none none
      false none SaveStatus.draft)
    ∧ PostInv
        { basePost with
          content := "x"
          word_count := wordCount "x"
          updated_at := 1 }
    ∧ PostInv
        { basePost with
          status := Status.scheduled
          scheduled_time := some 9 }
    ∧ PostInv (fanOut mixedEnv 7 basePost).post
    ∧ PostInv (fanOut okEnv 3 basePost).post
    ∧ PostInv laterPost
    ∧ PostInv duePost := by
  have h := engine_preserves_record_invariants
  refine ⟨?_, ?_, ?_, ?_, ?_, ?_, ?_⟩
  · exact h.1 [] 1 0 "hi" "custom" [Platform.linkedin] none none none false
      none SaveStatus.draft _ _ rfl
  · exact h.2.1 1 "x" basePost _ (by decide) rfl
  · exact h.2.2.1 5 9 basePost _ (by decide) rfl
  · exact h.2.2.2.1 mixedEnv 7 basePost (by decide)
  · exact h.2.2.2.2.1 okEnv 3 basePost _ true (by decide) rfl
  · exact h.2.2.2.2.2.1 okEnv 10 [duePost, laterPost] (by decide) laterPost
      (by decide)
  · exact h.2.2.2.2.2.2 3 [duePost] (by decide) duePost (by decide)

end SocialDashboard
